import Mathlib

/-!
Verification development for the SEO audit workflow (TypeScript sources under
`typescript/workflow/`).  The TypeScript code is shallowly embedded: HTML/XML
parsing performed by cheerio is modelled by passing in the already-extracted
query results (element attribute records, heading texts, anchor targets,
sitemap `loc` texts), network I/O is modelled by explicit environment
functions from URL strings to responses, and the `while` loops of the crawler
are written with an explicit fuel parameter (the source loops are not
guaranteed to terminate on infinite site graphs).  JavaScript `Promise`
settlement is modelled by the `Settled` type.
-/

/-- Test whether `p` is a prefix of the character list `s`. -/
def listStartsWith : List Char → List Char → Bool
  | [], _ => true
  | _ :: _, [] => false
  | p :: ps, c :: cs => p == c && listStartsWith ps cs

/-- Scan for an occurrence of `pat` at any position of the character list. -/
def containsAux (pat : List Char) : List Char → Bool
  | [] => listStartsWith pat []
  | c :: cs => listStartsWith pat (c :: cs) || containsAux pat cs

/-- Substring test, modelling JavaScript `String.prototype.includes`:
true exactly when `pat` occurs contiguously in `s` (always true for the empty
pattern).  Implemented on the underlying character lists. -/
def strContains (s pat : String) : Bool := containsAux pat.data s.data

/-- Whitespace-trimming of both ends, modelling JavaScript
`String.prototype.trim` (on the ASCII whitespace that occurs in this code
base).  Implemented on the underlying character list. -/
def jsTrim (s : String) : String :=
  String.mk
    (((s.data.dropWhile Char.isWhitespace).reverse.dropWhile
      Char.isWhitespace).reverse)

/-- ASCII lower-casing of one character, as `String.prototype.toLowerCase`
acts on the header values this code reads. -/
def charLower (c : Char) : Char :=
  if c.toNat ≥ 65 && c.toNat ≤ 90 then Char.ofNat (c.toNat + 32) else c

/-- Lower-casing, modelling `String.prototype.toLowerCase` on ASCII. -/
def jsToLower (s : String) : String := String.mk (s.data.map charLower)

/-- Severity of an SEO finding, from `Issue.type` in `analyzers.ts`. -/
inductive IssueType where
  | error
  | warning
  | info
deriving DecidableEq, Repr

/-- One SEO finding, from the `Issue` interface in `analyzers.ts`.  Optional
fields `value` and `link` are `Option`s. -/
structure Issue where
  type : IssueType
  message : String
  url : String
  value : Option String := none
  link : Option String := none
deriving DecidableEq, Repr

/-- JavaScript truthiness of a `string | undefined` attribute value:
falsy exactly when the attribute is absent or the empty string. -/
def attrFalsy : Option String → Bool
  | none => true
  | some s => s == ""

/-- Parsed view of the metadata that `checkMetaTags` queries from the DOM:
`title` is the text of the `title` element (`""` when absent, as
`$("title").text()` returns the empty string then), the remaining fields are
the raw attribute values of the corresponding elements (`none` when absent). -/
structure MetaDoc where
  title : String
  metaDescription : Option String
  ogTitle : Option String
  ogDescription : Option String
  ogImage : Option String
  canonical : Option String
deriving Repr

/-- Embedding of `checkMetaTags` from `analyzers.ts`.  String lengths are
code-point counts (the source counts UTF-16 units; identical on ASCII). -/
def checkMetaTags (m : MetaDoc) (pageUrl : String) : List Issue :=
  let title := jsTrim m.title
  let titleIssues : List Issue :=
    if title == "" then
      [{ type := .error, message := "Missing page title", url := pageUrl }]
    else if title.length < 30 then
      [{ type := .warning,
         message := s!"Title too short ({title.length} chars, recommended 50-60)",
         url := pageUrl, value := some title }]
    else if title.length > 60 then
      [{ type := .warning,
         message := s!"Title too long ({title.length} chars, recommended 50-60)",
         url := pageUrl, value := some ((title.take 70) ++ "...") }]
    else []
  let metaDesc := m.metaDescription.map jsTrim
  let descIssues : List Issue :=
    if attrFalsy metaDesc then
      [{ type := .error, message := "Missing meta description", url := pageUrl }]
    else
      let d := metaDesc.getD ""
      if d.length < 120 then
        [{ type := .warning,
           message := s!"Meta description too short ({d.length} chars, recommended 150-160)",
           url := pageUrl }]
      else if d.length > 160 then
        [{ type := .warning,
           message := s!"Meta description too long ({d.length} chars, recommended 150-160)",
           url := pageUrl }]
      else []
  let missingOg : List String :=
    (if attrFalsy m.ogTitle then ["og:title"] else []) ++
    (if attrFalsy m.ogDescription then ["og:description"] else []) ++
    (if attrFalsy m.ogImage then ["og:image"] else [])
  let ogIssues : List Issue :=
    if missingOg.length > 0 then
      let joined := String.intercalate ", " missingOg
      [{ type := .warning, message := s!"Missing Open Graph tags: {joined}",
         url := pageUrl }]
    else []
  let canonicalIssues : List Issue :=
    if attrFalsy m.canonical then
      [{ type := .info, message := "No canonical URL specified", url := pageUrl }]
    else []
  titleIssues ++ descIssues ++ ogIssues ++ canonicalIssues

/-- Embedding of `checkHeadings` from `analyzers.ts`.  The DOM is modelled by
the lists of heading texts per level: entry `i` of `headingsByLevel` holds the
texts of all `h(i+1)` elements, mirroring the source's level-major collection
loop (`for level = 1..6`). -/
def checkHeadings (headingsByLevel : List (List String)) (pageUrl : String) :
    List Issue :=
  let headings : List (Nat × String) :=
    (List.range 6).flatMap fun i =>
      (headingsByLevel.getD i []).map fun t => (i + 1, jsTrim t)
  let h1Count := (headings.filter fun h => h.1 == 1).length
  let h1Issues : List Issue :=
    if h1Count == 0 then
      [{ type := .error, message := "Missing H1 heading", url := pageUrl }]
    else if h1Count > 1 then
      [{ type := .warning, message := s!"Multiple H1 headings ({h1Count} found)",
         url := pageUrl }]
    else []
  let hierarchyIssues : List Issue :=
    if headings.length > 0 then
      let levelsUsed := ((headings.map Prod.fst).dedup).mergeSort (fun a b => a ≤ b)
      let startIssues : List Issue :=
        if levelsUsed.length > 0 && levelsUsed.getD 0 0 != 1 then
          let l0 := levelsUsed.getD 0 0
          [{ type := .warning,
             message := s!"First heading is H{l0}, should start with H1",
             url := pageUrl }]
        else []
      let gapIssues : List Issue :=
        (levelsUsed.zip levelsUsed.tail).flatMap fun p =>
          if p.2 - p.1 > 1 then
            [{ type := .warning,
               message := s!"Skipped heading level: H{p.1} to H{p.2}",
               url := pageUrl }]
          else []
      startIssues ++ gapIssues
    else []
  h1Issues ++ hierarchyIssues

/-- Outcome of an awaited JavaScript promise as reported by
`Promise.allSettled`: fulfilled with a value, or rejected with a reason whose
`.message` may be absent (modelled by `Option String`). -/
inductive Settled (α : Type) where
  | fulfilled (value : α)
  | rejected (reason : Option String)
deriving DecidableEq, Repr

/-- One `<a href>` element as seen by `checkLinks`: the raw `href` attribute
text together with the result of `new URL(href, pageUrl).href` (`none` when
the URL constructor throws). -/
structure Anchor where
  href : String
  resolved : Option String
deriving Repr

/-- Embedding of `checkLinks` from `analyzers.ts`.  The link-probe requests
(HEAD falling back to GET) are modelled by `probe`, giving the settled result
of the probe for each absolute URL: `fulfilled status` when some request
returned, `rejected reason` when the GET fallback also threw. -/
def checkLinks (anchors : List Anchor) (probe : String → Settled Nat)
    (pageUrl : String) : List Issue :=
  let urlsToCheck : List String :=
    (anchors.take 20).foldl
      (fun acc a =>
        if a.href.startsWith "#" || a.href.startsWith "javascript:" ||
            a.href.startsWith "mailto:" || a.href.startsWith "tel:" then acc
        else
          match a.resolved with
          | none => acc
          | some abs => if acc.contains abs then acc else acc ++ [abs])
      []
  let results : List (String × Settled Nat) :=
    (urlsToCheck.take 20).map fun u => (u, probe u)
  results.foldl
    (fun issues r =>
      match r.2 with
      | .fulfilled status =>
          if [404, 410, 500, 502, 504].contains status then
            issues ++ [{ type := .error,
                         message := s!"Broken link (HTTP {status})",
                         url := pageUrl, link := some r.1 }]
          else issues
      | .rejected reason =>
          let msg := reason.getD "Unknown error"
          issues ++ [{ type := .error, message := s!"Link error: {msg}",
                       url := pageUrl }])
    []

/-- One `<img>` element as seen by `checkImages`: its `alt`, `width`,
`height` and `style` attributes (`none` when absent). -/
structure ImgTag where
  alt : Option String := none
  width : Option String := none
  height : Option String := none
  style : Option String := none
deriving Repr

/-- The accumulating loop body of `checkImages`: given the running
`(missingAlt, emptyAlt, missingDimensions)` counters, account for one image. -/
def imgStep (acc : Nat × Nat × Nat) (img : ImgTag) : Nat × Nat × Nat :=
  let altCounts : Nat × Nat :=
    match img.alt with
    | none => (acc.1 + 1, acc.2.1)
    | some a => if jsTrim a == "" then (acc.1, acc.2.1 + 1) else (acc.1, acc.2.1)
  let style := img.style.getD ""
  let missingDim :=
    if attrFalsy img.width && attrFalsy img.height &&
        !(strContains style "width") && !(strContains style "height") then
      acc.2.2 + 1
    else acc.2.2
  (altCounts.1, altCounts.2, missingDim)

/-- The three counters computed by the `for (const img of images)` loop of
`checkImages`. -/
def imgCounters (imgs : List ImgTag) : Nat × Nat × Nat :=
  imgs.foldl imgStep (0, 0, 0)

/-- Embedding of `checkImages` from `analyzers.ts`; the DOM is modelled by the
list of `<img>` attribute records in document order. -/
def checkImages (imgs : List ImgTag) (pageUrl : String) : List Issue :=
  let c := imgCounters imgs
  let missingAlt := c.1
  let emptyAlt := c.2.1
  let missingDimensions := c.2.2
  (if missingAlt > 0 then
      [{ type := .error,
         message := s!"{missingAlt} image(s) missing alt attribute",
         url := pageUrl }]
    else []) ++
  (if emptyAlt > 0 then
      [{ type := .info,
         message := s!"{emptyAlt} image(s) with empty alt (verify if decorative)",
         url := pageUrl }]
    else []) ++
  (if missingDimensions > 0 then
      [{ type := .warning,
         message := s!"{missingDimensions} image(s) missing width/height (may cause CLS)",
         url := pageUrl }]
    else [])

/-- Embedding of `checkPerformance` from `analyzers.ts`.  The DOM is modelled
by the two resource counts the source extracts (`$("script[src]").length` and
the stylesheet `link` count).  The source computes `sizeKb = contentLength /
1024` in floating point and compares it with the integer thresholds 500 and
10; for integer `contentLength` those comparisons are exactly
`contentLength > 500 * 1024` and `contentLength > 10 * 1024`, which is how
they are written here (the `toFixed(1)` rendering inside messages is
abstracted to the integer quotient). -/
def checkPerformance (scriptSrcCount stylesheetCount : Nat) (pageUrl : String)
    (loadTime contentLength : Nat) (headers : List (String × String)) :
    List Issue :=
  let sizeKb := contentLength / 1024
  let sizeIssues : List Issue :=
    if contentLength > 500 * 1024 then
      [{ type := .warning,
         message := s!"Large page size ({sizeKb} KB, recommended < 500 KB)",
         url := pageUrl }]
    else []
  let loadIssues : List Issue :=
    if loadTime > 3000 then
      [{ type := .error,
         message := s!"Slow load time ({loadTime}ms, recommended < 3000ms)",
         url := pageUrl }]
    else if loadTime > 1500 then
      [{ type := .warning,
         message := s!"Moderate load time ({loadTime}ms, recommended < 1500ms)",
         url := pageUrl }]
    else []
  let scriptIssues : List Issue :=
    if scriptSrcCount > 15 then
      [{ type := .warning,
         message := s!"Many external scripts ({scriptSrcCount}, consider bundling)",
         url := pageUrl }]
    else []
  let stylesheetIssues : List Issue :=
    if stylesheetCount > 5 then
      [{ type := .warning,
         message := s!"Many external stylesheets ({stylesheetCount}, consider bundling)",
         url := pageUrl }]
    else []
  let contentEncoding := jsToLower ((headers.lookup "content-encoding").getD "")
  let compressionIssues : List Issue :=
    if !(strContains contentEncoding "gzip") && !(strContains contentEncoding "br") then
      if contentLength > 10 * 1024 then
        [{ type := .info,
           message := "No compression detected (gzip/brotli recommended)",
           url := pageUrl }]
      else []
    else []
  sizeIssues ++ loadIssues ++ scriptIssues ++ stylesheetIssues ++ compressionIssues

/-- Structured WHATWG URL as exposed by the JavaScript `URL` class: the
components the source reads (`protocol` includes the trailing colon, e.g.
`"https:"`; `search` starts with `"?"` and `hash` with `"#"` when present,
and both are `""` when absent). -/
structure Url where
  protocol : String
  host : String
  pathname : String
  search : String := ""
  hash : String := ""
deriving DecidableEq, Repr

/-- Serialization of a URL, as `URL.prototype.href` / string coercion. -/
def urlString (u : Url) : String :=
  u.protocol ++ "//" ++ u.host ++ u.pathname ++ u.search ++ u.hash

/-- Canonical form built by `crawlLinks` for enqueued links:
`protocol + "//" + host + pathname` (query and fragment stripped). -/
def canonUrl (u : Url) : String :=
  u.protocol ++ "//" ++ u.host ++ u.pathname

/-- Embedding of `subSitemapUrl.replace(/\/sitemap\.xml$/, "")` from
`trySitemap`: remove one trailing occurrence of `"/sitemap.xml"`. -/
def stripSitemapSuffix (s : String) : String :=
  let sfx := "/sitemap.xml"
  if sfx.data.isSuffixOf s.data then
    String.mk (s.data.take (s.data.length - sfx.data.length))
  else s

/-- A fetched HTTP response as consumed by the Discovery Engine, with the
body's parses pre-extracted: `sitemapLocs` and `urlLocs` are the text contents
of the `<sitemap><loc>` and `<url><loc>` elements of the body read as XML (in
document order), and `links` are the `<a href>` targets of the body read as
HTML, each already resolved against the fetched page's URL (`none` when the
`URL` constructor throws on the raw href). -/
structure Response where
  ok : Bool
  contentType : String := ""
  sitemapLocs : List String := []
  urlLocs : List String := []
  links : List (Option Url) := []
deriving DecidableEq

/-- Network environment for discovery: what `safeFetch` returns for each URL
string; `none` models a thrown fetch error. -/
def Net : Type := String → Option Response

/-- Embedding of `trySitemap` from `analyzers.ts`.  `fuel` bounds the
recursion depth through sitemap indexes (the source recursion has no such
bound and can diverge on a cyclic index chain); fuel exhaustion returns `[]`.
The source collects `<url><loc>` texts, trimmed, while fewer than `maxPages`
have been pushed, which is `take maxPages` of the trimmed texts. -/
def trySitemap (env : Net) (fuel : Nat) (baseUrl : String) (maxPages : Nat) :
    List String :=
  match fuel with
  | 0 => []
  | fuel + 1 =>
    match env (baseUrl ++ "/sitemap.xml") with
    | none => []
    | some resp =>
      if !resp.ok then []
      else
        let regular := (resp.urlLocs.map jsTrim).take maxPages
        match resp.sitemapLocs with
        | sub :: _ =>
          let subSitemapUrl := jsTrim sub
          if subSitemapUrl != "" then
            trySitemap env fuel (stripSitemapSuffix subSitemapUrl) maxPages
          else regular
        | [] => regular

/-- Mutable state of the `crawlLinks` loop: the visited set (modelled as a
list, membership only), the FIFO `toVisit` queue, and the discovered URLs. -/
structure CrawlState where
  visited : List String
  toVisit : List String
  foundUrls : List String

/-- Processing of the `$("a[href]").each(...)` body of `crawlLinks` for one
page: enqueue the canonical form of each resolved link that shares the root's
host and is neither visited nor already queued. -/
def enqueueLinks (baseHost : String) (visited : List String)
    (links : List (Option Url)) (queue : List String) : List String :=
  links.foldl
    (fun q link =>
      match link with
      | none => q
      | some abs =>
        if abs.host == baseHost then
          let cleanUrl := canonUrl abs
          if !(visited.contains cleanUrl) && !(q.contains cleanUrl) then
            q ++ [cleanUrl]
          else q
        else q)
    queue

/-- The `while (toVisit.length > 0 && foundUrls.length < maxPages)` loop of
`crawlLinks`, with one unit of fuel per iteration (the source loop can
diverge on an unbounded site graph).  A fetched page is recorded in
`foundUrls` verbatim (as dequeued) when the response is ok and HTML. -/
def crawlLoop (env : Net) (baseHost : String) (maxPages : Nat) :
    Nat → CrawlState → List String
  | 0, st => st.foundUrls
  | fuel + 1, st =>
    match st.toVisit with
    | [] => st.foundUrls
    | url :: rest =>
      if st.foundUrls.length ≥ maxPages then st.foundUrls
      else if url == "" then
        -- `const url = toVisit.shift(); if (!url) continue;`
        crawlLoop env baseHost maxPages fuel { st with toVisit := rest }
      else if st.visited.contains url then
          crawlLoop env baseHost maxPages fuel { st with toVisit := rest }
        else
          let visited := url :: st.visited
          match env url with
          | none =>
            crawlLoop env baseHost maxPages fuel
              { visited := visited, toVisit := rest, foundUrls := st.foundUrls }
          | some resp =>
            if !resp.ok then
              crawlLoop env baseHost maxPages fuel
                { visited := visited, toVisit := rest, foundUrls := st.foundUrls }
            else if !(strContains resp.contentType "text/html") then
              crawlLoop env baseHost maxPages fuel
                { visited := visited, toVisit := rest, foundUrls := st.foundUrls }
            else
              crawlLoop env baseHost maxPages fuel
                { visited := visited,
                  toVisit := enqueueLinks baseHost visited resp.links rest,
                  foundUrls := st.foundUrls ++ [url] }

/-- Embedding of `crawlLinks` from `analyzers.ts`.  `baseHost` is
`new URL(baseUrl).host`, which for the `baseUrl` built by `discoverPages`
is the root URL's host. -/
def crawlLinks (env : Net) (startUrl : String) (baseHost : String)
    (maxPages fuel : Nat) : List String :=
  crawlLoop env baseHost maxPages fuel
    { visited := [], toVisit := [startUrl], foundUrls := [] }

/-- Embedding of `discoverPages` from `analyzers.ts`: sitemap first, link
crawl as fallback.  The root URL is passed in parsed form (`new URL(rootUrl)`
in the source); the string handed to `crawlLinks` is the original root URL
string, i.e. `urlString root`. -/
def discoverPages (env : Net) (fuel : Nat) (root : Url) (maxPages : Nat) :
    List String :=
  let baseUrl := root.protocol ++ "//" ++ root.host
  let sitemapUrls := trySitemap env fuel baseUrl maxPages
  if sitemapUrls.length > 0 then sitemapUrls.take maxPages
  else crawlLinks env (urlString root) root.host maxPages fuel

/-- Parsed view of one fetched HTML page: everything the five checks of
`analyzePage` query from the cheerio parse of `pageData.html`. -/
structure PageDoc where
  meta : MetaDoc
  anchors : List Anchor := []
  headingsByLevel : List (List String) := []
  imgs : List ImgTag := []
  scriptSrcCount : Nat := 0
  stylesheetCount : Nat := 0

/-- Result of `fetchPage` from `analyzers.ts`: either the page content with
its metadata, or `{error: message}` (returned, not thrown, on timeout and on
network errors). -/
inductive FetchOutcome where
  | ok (doc : PageDoc) (headers : List (String × String))
       (loadTime contentLength statusCode : Nat)
  | err (msg : String)

/-- Test for the failure case of `fetchPage` (the `if (pageData.error)`
branch of `analyzePage`). -/
def FetchOutcome.isErr : FetchOutcome → Bool
  | .err _ => true
  | .ok _ _ _ _ _ => false

/-- The `PageResult` interface from `workflow/index.ts`.  The `issues` record
is an association list in the insertion order of the source object literal. -/
structure PageResult where
  url : String
  issues : List (String × List Issue)
  load_time_ms : Option Nat := none
  content_length : Option Nat := none
  error : Option String := none
deriving DecidableEq, Repr

/-- The `AuditResult` interface from `workflow/index.ts`; the two record
fields are association lists in object-key insertion order. -/
structure AuditResult where
  url : String
  pages_analyzed : Nat
  failed_pages : List (String × String)
  total_issues : Nat
  issues_by_category : List (String × Nat)
  results : List PageResult
deriving DecidableEq, Repr

/-- Embedding of the `analyze_page` task body from `workflow/index.ts`: fetch
the page, short-circuit to an error `PageResult` (with empty `issues`) when
`fetchPage` reported an error, otherwise run the five checks. -/
def analyzePage (page : String → FetchOutcome) (probe : String → Settled Nat)
    (pageUrl : String) : PageResult :=
  match page pageUrl with
  | .err msg => { url := pageUrl, error := some msg, issues := [] }
  | .ok doc headers loadTime contentLength _ =>
    { url := pageUrl
      issues :=
        [("meta_tags", checkMetaTags doc.meta pageUrl),
         ("links", checkLinks doc.anchors probe pageUrl),
         ("headings", checkHeadings doc.headingsByLevel pageUrl),
         ("images", checkImages doc.imgs pageUrl),
         ("performance",
          checkPerformance doc.scriptSrcCount doc.stylesheetCount pageUrl
            loadTime contentLength headers)]
      load_time_ms := some loadTime
      content_length := some contentLength }

/-- The complete environment of one audit run: discovery fetches, page
fetches, link probes, and the task substrate.  `taskFail url = some reason`
models the `analyze_page` task run for `url` being rejected by the execution
substrate (an uncaught exception or infrastructure failure surviving the
retries); `analyzePage` itself never rejects on a fetch error — `fetchPage`
returns the error as data. -/
structure World where
  net : Net
  page : String → FetchOutcome
  probe : String → Settled Nat
  taskFail : String → Option (Option String)

/-- The settled result `audit_site` observes for one spawned `analyze_page`
task. -/
def runAnalyze (w : World) (url : String) : Settled PageResult :=
  match w.taskFail url with
  | some reason => .rejected reason
  | none => .fulfilled (analyzePage w.page w.probe url)

/-- Fuel-paced recursion underlying `processBatches`: one step per loop
iteration of the source, consuming one batch-sized slice. -/
def processBatchesAux {α β : Type} (proc : α → Settled β) (batchSize : Nat) :
    Nat → List α → List (Settled β)
  | _, [] => []
  | 0, _ :: _ => []
  | fuel + 1, a :: rest =>
    ((a :: rest).take batchSize).map proc ++
      processBatchesAux proc batchSize fuel ((a :: rest).drop batchSize)

/-- Embedding of `processBatches` from `workflow/index.ts`: slice the items
into consecutive batches of `batchSize`, settle each batch with
`Promise.allSettled` (order-preserving), and concatenate.  The recursion is
paced by a fuel of `items.length`, which dominates the number of loop
iterations whenever `batchSize ≥ 1` since every iteration consumes
`batchSize` items; the source `for` loop never terminates when
`batchSize = 0` and `items` is non-empty — that case returns `[]` here and is
never reached from `audit_site`, which clamps the concurrency to at least
1. -/
def processBatches {α β : Type} (items : List α) (batchSize : Nat)
    (proc : α → Settled β) : List (Settled β) :=
  processBatchesAux proc batchSize items.length items

/-- Fuel-paced recursion underlying `batches`, mirroring
`processBatchesAux`. -/
def batchesAux {α : Type} (batchSize : Nat) : Nat → List α → List (List α)
  | _, [] => []
  | 0, _ :: _ => []
  | fuel + 1, a :: rest =>
    (a :: rest).take batchSize :: batchesAux batchSize fuel ((a :: rest).drop batchSize)

/-- The batch partition underlying `processBatches`: the successive
`items.slice(i, i + batchSize)` windows of the source loop. -/
def batches {α : Type} (items : List α) (batchSize : Nat) : List (List α) :=
  batchesAux batchSize items.length items

/-- The `results.forEach((result, index) => ...)` aggregation of
`audit_site`: pair each settled result with `pages[index]` and split into the
fulfilled page results and the `{url, error}` entries of rejected analyses,
both in input order. -/
def splitSettled (pages : List String) (results : List (Settled PageResult)) :
    List PageResult × List (String × String) :=
  let paired := pages.zip results
  (paired.filterMap fun pr =>
     match pr.2 with
     | .fulfilled v => some v
     | .rejected _ => none,
   paired.filterMap fun pr =>
     match pr.2 with
     | .rejected reason => some (pr.1, reason.getD "Unknown error")
     | .fulfilled _ => none)

/-- The five fixed category keys of the `allIssues` object literal in
`audit_site`, in insertion order. -/
def categoryKeys : List String :=
  ["meta_tags", "links", "headings", "images", "performance"]

/-- The result-shaping tail of `audit_site` (everything after the
`processBatches` call): split the settled results, aggregate issues over the
five fixed categories, and build the `AuditResult`. -/
def aggregateAudit (rootStr : String) (pages : List String)
    (results : List (Settled PageResult)) : AuditResult :=
  let split := splitSettled pages results
  let successfulResults := split.1
  let failedPages := split.2
  let allIssues : List (String × List Issue) :=
    categoryKeys.map fun c =>
      (c, successfulResults.foldl
            (fun acc r => acc ++ ((r.issues.lookup c).getD [])) [])
  let totalIssues := allIssues.foldl (fun s kv => s + kv.2.length) 0
  { url := rootStr
    pages_analyzed := successfulResults.length
    failed_pages := failedPages
    total_issues := totalIssues
    issues_by_category := allIssues.map fun kv => (kv.1, kv.2.length)
    results := successfulResults }

/-- Embedding of the `audit_site` task body from `workflow/index.ts`.  The
`url` argument is taken in parsed form (the source receives the string and
discovery parses it); the returned `url` field is its string form. -/
def audit_site (w : World) (fuel : Nat) (root : Url)
    (maxPages : Nat := 25) (maxConcurrency : Nat := 10) : AuditResult :=
  let cappedMaxPages := min maxPages 100
  let cappedConcurrency := min (max maxConcurrency 1) 50
  let pages := discoverPages w.net fuel root cappedMaxPages
  if pages.length = 0 then
    { url := urlString root, pages_analyzed := 0, failed_pages := [],
      total_issues := 0, issues_by_category := [], results := [] }
  else
    aggregateAudit (urlString root) pages
      (processBatches pages cappedConcurrency (runAnalyze w))

/-- Events of the analysis phase: an `analyze_page` invocation starting and a
promise settling (fulfilled or rejected). -/
inductive Ev where
  | start
  | settle
deriving DecidableEq, Repr

/-- Predicate for start events. -/
def isStart : Ev → Bool
  | .start => true
  | .settle => false

/-- Predicate for settle events. -/
def isSettle : Ev → Bool
  | .settle => true
  | .start => false

/-- Number of analyses in flight after the events of `p`: starts seen minus
settles seen. -/
def inFlight (p : List Ev) : Nat :=
  p.countP isStart - p.countP isSettle

/-- The event traces `processBatches` can produce, indexed by the batch
sizes.  One batch of size `n` contributes a contiguous trace segment with
exactly `n` starts and `n` settles in which settles never outnumber starts
(every promise settles after it starts); `await Promise.allSettled` forces
the whole segment to precede the next batch's segment. -/
inductive BatchRunTrace : List Nat → List Ev → Prop where
  | nil : BatchRunTrace [] []
  | cons (n : Nat) (ns : List Nat) (trb tr : List Ev) :
      trb.countP isStart = n →
      trb.countP isSettle = n →
      (∀ q, q <+: trb → q.countP isSettle ≤ q.countP isStart) →
      BatchRunTrace ns tr →
      BatchRunTrace (n :: ns) (trb ++ tr)

theorem processBatchesAux_eq_flatten {α β : Type} (proc : α → Settled β)
    (batchSize : Nat) : ∀ (fuel : Nat) (items : List α),
    processBatchesAux proc batchSize fuel items =
      ((batchesAux batchSize fuel items).map fun b => b.map proc).flatten
  | _, [] => by simp [processBatchesAux, batchesAux]
  | 0, _ :: _ => by simp [processBatchesAux, batchesAux]
  | fuel + 1, a :: rest => by
    simp only [processBatchesAux, batchesAux, List.map_cons, List.flatten_cons]
    rw [processBatchesAux_eq_flatten proc batchSize fuel]

theorem processBatches_eq_flatten {α β : Type} (items : List α)
    (batchSize : Nat) (proc : α → Settled β) :
    processBatches items batchSize proc =
      ((batches items batchSize).map fun b => b.map proc).flatten :=
  processBatchesAux_eq_flatten proc batchSize items.length items

theorem batchesAux_flatten {α : Type} (bs : Nat) (hbs : bs ≠ 0) :
    ∀ (fuel : Nat) (items : List α), items.length ≤ fuel →
      (batchesAux bs fuel items).flatten = items
  | _, [], _ => by simp [batchesAux]
  | 0, a :: rest, h => by simp at h
  | fuel + 1, a :: rest, h => by
    simp only [batchesAux, List.flatten_cons]
    rw [batchesAux_flatten bs hbs fuel]
    · exact List.take_append_drop bs (a :: rest)
    · simp only [List.length_drop, List.length_cons]
      simp only [List.length_cons] at h
      omega

theorem batches_flatten {α : Type} (items : List α) (bs : Nat) (hbs : bs ≠ 0) :
    (batches items bs).flatten = items :=
  batchesAux_flatten bs hbs items.length items le_rfl

theorem processBatches_eq_map {α β : Type} (items : List α) (bs : Nat)
    (hbs : bs ≠ 0) (proc : α → Settled β) :
    processBatches items bs proc = items.map proc := by
  rw [processBatches_eq_flatten items bs proc]
  calc ((batches items bs).map fun b => b.map proc).flatten
      = ((batches items bs).flatten).map proc := by
        rw [List.map_flatten]
    _ = items.map proc := by rw [batches_flatten items bs hbs]

theorem batchesAux_mem_le {α : Type} (bs : Nat) (hbs : bs ≠ 0) :
    ∀ (fuel : Nat) (items : List α) (b : List α),
      b ∈ batchesAux bs fuel items → b ≠ [] ∧ b.length ≤ bs
  | _, [], b => by simp [batchesAux]
  | 0, a :: rest, b => by simp [batchesAux]
  | fuel + 1, a :: rest, b => by
    simp only [batchesAux, List.mem_cons]
    rintro (rfl | hmem)
    · constructor
      · cases bs with
        | zero => exact absurd rfl hbs
        | succ n => simp [List.take]
      · simp [List.length_take_le]
    · exact batchesAux_mem_le bs hbs fuel _ b hmem

theorem batchesAux_ne_nil {α : Type} (bs : Nat) (fuel : Nat) (items : List α)
    (hne : items ≠ []) (hf : items.length ≤ fuel) :
    batchesAux bs fuel items ≠ [] := by
  match fuel, items with
  | _, [] => exact absurd rfl hne
  | 0, a :: rest => simp at hf
  | fuel + 1, a :: rest => simp [batchesAux]

theorem batchesAux_dropLast {α : Type} (bs : Nat) (hbs : bs ≠ 0) :
    ∀ (fuel : Nat) (items : List α), items.length ≤ fuel →
      ∀ b ∈ (batchesAux bs fuel items).dropLast, b.length = bs
  | _, [], _ => by simp [batchesAux]
  | 0, a :: rest, h => by simp at h
  | fuel + 1, a :: rest, h => by
    intro b hb
    simp only [batchesAux] at hb
    by_cases hdrop : (a :: rest).drop bs = []
    · rw [hdrop] at hb
      simp [batchesAux] at hb
    · have hdl : ((a :: rest).drop bs).length ≤ fuel := by
        simp only [List.length_drop, List.length_cons]
        simp only [List.length_cons] at h
        omega
      have hne := batchesAux_ne_nil bs fuel _ hdrop hdl
      rw [List.dropLast_cons_of_ne_nil hne] at hb
      rcases List.mem_cons.mp hb with rfl | hb
      · have hlt : bs < (a :: rest).length := by
          by_contra hcon
          exact hdrop (List.drop_eq_nil_of_le (Nat.le_of_not_lt hcon))
        simp only [List.length_cons] at hlt
        simp only [List.length_take, List.length_cons]
        omega
      · exact batchesAux_dropLast bs hbs fuel _ hdl b hb

theorem batches_mem_le {α : Type} (items : List α) (bs : Nat) (hbs : bs ≠ 0)
    (b : List α) (hb : b ∈ batches items bs) : b ≠ [] ∧ b.length ≤ bs :=
  batchesAux_mem_le bs hbs items.length items b hb

theorem batches_dropLast {α : Type} (items : List α) (bs : Nat) (hbs : bs ≠ 0)
    (b : List α) (hb : b ∈ (batches items bs).dropLast) : b.length = bs :=
  batchesAux_dropLast bs hbs items.length items le_rfl b hb

theorem zip_map_self {α β : Type} (l : List α) (f : α → β) :
    l.zip (l.map f) = l.map fun a => (a, f a) := by
  induction l with
  | nil => rfl
  | cons a as ih => simp [ih]

theorem splitSettled_map (pages : List String)
    (proc : String → Settled PageResult) :
    splitSettled pages (pages.map proc) =
      (pages.filterMap fun u =>
         match proc u with
         | .fulfilled v => some v
         | .rejected _ => none,
       pages.filterMap fun u =>
         match proc u with
         | .rejected reason => some (u, reason.getD "Unknown error")
         | .fulfilled _ => none) := by
  rw [splitSettled, zip_map_self, List.filterMap_map, List.filterMap_map]
  rfl

theorem foldl_add_issue_length (l : List (String × List Issue)) :
    ∀ n : Nat, l.foldl (fun s kv => s + kv.2.length) n =
      n + (l.map fun kv => kv.2.length).sum := by
  induction l with
  | nil => simp
  | cons kv rest ih =>
    intro n
    simp only [List.foldl_cons, List.map_cons, List.sum_cons]
    rw [ih]
    omega

theorem foldl_lookup_empty (c : String) (prs : List PageResult)
    (h : ∀ r ∈ prs, r.issues = []) :
    ∀ acc : List Issue,
      prs.foldl (fun acc r => acc ++ ((r.issues.lookup c).getD [])) acc = acc := by
  induction prs with
  | nil => intro acc; rfl
  | cons r rest ih =>
    intro acc
    have hr : r.issues = [] := h r (List.mem_cons_self r rest)
    simp only [List.foldl_cons, hr, List.lookup_nil, Option.getD_none,
      List.append_nil]
    exact ih (fun x hx => h x (List.mem_cons_of_mem r hx)) acc

theorem enqueueLinks_forall (P : String → Prop) (baseHost : String)
    (hc : ∀ url : Url, url.host = baseHost → P (canonUrl url))
    (visited : List String) :
    ∀ (links : List (Option Url)) (q : List String), (∀ u ∈ q, P u) →
      ∀ u ∈ enqueueLinks baseHost visited links q, P u := by
  intro links
  induction links with
  | nil => intro q hq; simpa [enqueueLinks] using hq
  | cons link rest ih =>
    intro q hq
    simp only [enqueueLinks, List.foldl_cons] at *
    apply ih
    cases link with
    | none => exact hq
    | some abs =>
      simp only
      split
      next hhost =>
        split
        next =>
          intro u hu
          rcases List.mem_append.mp hu with hu | hu
          · exact hq u hu
          · rcases List.mem_singleton.mp hu with rfl
            exact hc abs (by simpa using hhost)
        next => exact hq
      next => exact hq

theorem crawlLoop_length_le (env : Net) (baseHost : String) (mp : Nat) :
    ∀ (fuel : Nat) (st : CrawlState), st.foundUrls.length ≤ mp →
      (crawlLoop env baseHost mp fuel st).length ≤ mp := by
  intro fuel
  induction fuel with
  | zero => intro st h; exact h
  | succ fuel ih =>
    intro st h
    obtain ⟨v, tv, f⟩ := st
    cases tv with
    | nil => exact h
    | cons url rest =>
      simp only [crawlLoop]
      split
      next => exact h
      next hlt =>
        split
        next => exact ih _ h
        next =>
          split
          next => exact ih _ h
          next hv =>
            cases henv : env url with
            | none => exact ih _ h
            | some resp =>
              simp only
              split
              next => exact ih _ h
              next =>
                split
                next => exact ih _ h
                next =>
                  apply ih
                  simp only [List.length_append, List.length_singleton]
                  simp only [not_le] at hlt
                  omega

theorem crawlLoop_nodup (env : Net) (baseHost : String) (mp : Nat) :
    ∀ (fuel : Nat) (st : CrawlState), st.foundUrls.Nodup →
      (∀ u ∈ st.foundUrls, u ∈ st.visited) →
      (crawlLoop env baseHost mp fuel st).Nodup := by
  intro fuel
  induction fuel with
  | zero => intro st h _; exact h
  | succ fuel ih =>
    intro st hnd hsub
    obtain ⟨v, tv, f⟩ := st
    cases tv with
    | nil => exact hnd
    | cons url rest =>
      simp only [crawlLoop]
      split
      next => exact hnd
      next =>
        split
        next => exact ih _ hnd hsub
        next =>
          split
          next => exact ih _ hnd hsub
          next hv =>
            have hnotv : url ∉ v := by
              intro hmem
              exact hv (List.elem_eq_true_of_mem hmem)
            cases henv : env url with
            | none =>
              exact ih _ hnd fun u hu => List.mem_cons_of_mem url (hsub u hu)
            | some resp =>
              simp only
              split
              next =>
                exact ih _ hnd fun u hu => List.mem_cons_of_mem url (hsub u hu)
              next =>
                split
                next =>
                  exact ih _ hnd fun u hu => List.mem_cons_of_mem url (hsub u hu)
                next =>
                  apply ih
                  · simp only [List.nodup_append, List.nodup_singleton,
                      List.disjoint_singleton]
                    exact ⟨hnd, trivial, fun hmem => hnotv (hsub url hmem)⟩
                  · intro u hu
                    rcases List.mem_append.mp hu with hu | hu
                    · exact List.mem_cons_of_mem url (hsub u hu)
                    · rcases List.mem_singleton.mp hu with rfl
                      exact List.mem_cons_self _ _

theorem crawlLoop_forall (env : Net) (baseHost : String) (mp : Nat)
    (P : String → Prop)
    (hc : ∀ url : Url, url.host = baseHost → P (canonUrl url)) :
    ∀ (fuel : Nat) (st : CrawlState), (∀ u ∈ st.toVisit, P u) →
      (∀ u ∈ st.foundUrls, P u) →
      ∀ u ∈ crawlLoop env baseHost mp fuel st, P u := by
  intro fuel
  induction fuel with
  | zero => intro st _ h; exact h
  | succ fuel ih =>
    intro st htv hf
    obtain ⟨v, tv, f⟩ := st
    cases tv with
    | nil => exact hf
    | cons url rest =>
      have hurl : P url := htv url (List.mem_cons_self _ _)
      have hrest : ∀ u ∈ rest, P u := fun u hu => htv u (List.mem_cons_of_mem _ hu)
      simp only [crawlLoop]
      split
      next => exact hf
      next =>
        split
        next => exact ih _ hrest hf
        next =>
          split
          next => exact ih _ hrest hf
          next =>
            cases henv : env url with
            | none => exact ih _ hrest hf
            | some resp =>
              simp only
              split
              next => exact ih _ hrest hf
              next =>
                split
                next => exact ih _ hrest hf
                next =>
                  apply ih
                  · exact enqueueLinks_forall P baseHost hc _ resp.links rest hrest
                  · intro u hu
                    rcases List.mem_append.mp hu with hu | hu
                    · exact hf u hu
                    · rcases List.mem_singleton.mp hu with rfl
                      exact hurl

/-- Predicate for images counted by the `missingAlt` counter. -/
def pMissingAlt (i : ImgTag) : Bool := i.alt.isNone

/-- Predicate for images counted by the `emptyAlt` counter. -/
def pEmptyAlt (i : ImgTag) : Bool :=
  match i.alt with
  | some a => jsTrim a == ""
  | none => false

/-- Predicate for images counted by the `missingDimensions` counter. -/
def pMissingDim (i : ImgTag) : Bool :=
  attrFalsy i.width && attrFalsy i.height &&
    !(strContains (i.style.getD "") "width") &&
    !(strContains (i.style.getD "") "height")

theorem imgStep_eq (acc : Nat × Nat × Nat) (img : ImgTag) :
    imgStep acc img =
      (acc.1 + (if pMissingAlt img then 1 else 0),
       acc.2.1 + (if pEmptyAlt img then 1 else 0),
       acc.2.2 + (if pMissingDim img then 1 else 0)) := by
  obtain ⟨a, b, c⟩ := acc
  obtain ⟨alt, w, hgt, sty⟩ := img
  simp only [imgStep, pMissingAlt, pEmptyAlt, pMissingDim]
  cases alt with
  | none => simp only [Option.isNone_none, if_true]; split_ifs <;> simp_all
  | some s =>
    simp only [Option.isNone_some]
    split_ifs <;> simp_all

theorem imgCounters_eq_countP (imgs : List ImgTag) :
    imgCounters imgs =
      (imgs.countP pMissingAlt, imgs.countP pEmptyAlt, imgs.countP pMissingDim) := by
  have aux : ∀ (l : List ImgTag) (a b c : Nat),
      l.foldl imgStep (a, b, c) =
        (a + l.countP pMissingAlt, b + l.countP pEmptyAlt,
         c + l.countP pMissingDim) := by
    intro l
    induction l with
    | nil => intro a b c; simp [List.countP_nil]
    | cons i rest ih =>
      intro a b c
      simp only [List.foldl_cons, imgStep_eq, List.countP_cons]
      split_ifs <;> (rw [ih]; refine Prod.ext ?_ (Prod.ext ?_ ?_) <;> simp <;> omega)
  simpa using aux imgs 0 0 0

theorem stripSitemapSuffix_append (p : String) :
    stripSitemapSuffix (p ++ "/sitemap.xml") = p := by
  have hdata : (p ++ "/sitemap.xml").data = p.data ++ ("/sitemap.xml" : String).data :=
    String.data_append p "/sitemap.xml"
  have hsfx : ("/sitemap.xml" : String).data.isSuffixOf (p ++ "/sitemap.xml").data = true := by
    rw [hdata, List.isSuffixOf_iff_suffix]
    exact List.suffix_append p.data _
  simp only [stripSitemapSuffix, hsfx, if_true]
  apply String.ext
  simp only [hdata, List.length_append]
  rw [Nat.add_sub_cancel]
  exact List.take_left p.data _

theorem prefix_append_cases {α : Type} {p a b : List α} (h : p <+: a ++ b) :
    p <+: a ∨ ∃ q, p = a ++ q ∧ q <+: b := by
  obtain ⟨t, ht⟩ := h
  rcases List.append_eq_append_iff.mp ht with ⟨u, hu1, hu2⟩ | ⟨u, hu1, hu2⟩
  · left
    exact ⟨u, hu1.symm⟩
  · right
    refine ⟨u, hu1, ⟨t, ?_⟩⟩
    exact hu2.symm

theorem batchRunTrace_inFlight (C : Nat) :
    ∀ (ns : List Nat) (tr : List Ev), (∀ n ∈ ns, n ≤ C) →
      BatchRunTrace ns tr → ∀ p, p <+: tr →
        p.countP isStart - p.countP isSettle ≤ C := by
  intro ns tr hns hrun
  induction hrun with
  | nil =>
    intro p hp
    rw [List.prefix_nil.mp hp]
    simp
  | cons n ns trb tr hstart hsettle hprefix _ ih =>
    intro p hp
    rcases prefix_append_cases hp with hp | ⟨q, rfl, hq⟩
    · have h1 : p.countP isStart ≤ trb.countP isStart := (hp.sublist).countP_le _
      have hn : n ≤ C := hns n (List.mem_cons_self _ _)
      omega
    · have hns2 : ∀ m ∈ ns, m ≤ C := fun m hm => hns m (List.mem_cons_of_mem _ hm)
      have := ih hns2 q hq
      simp only [List.countP_append, hstart, hsettle]
      omega

theorem filterMap_eq_map_of_forall {α β : Type} (l : List α) (f : α → Option β)
    (g : α → β) (h : ∀ u ∈ l, f u = some (g u)) : l.filterMap f = l.map g := by
  induction l with
  | nil => rfl
  | cons a as ih =>
    simp only [List.filterMap_cons, h a (List.mem_cons_self _ _), List.map_cons]
    rw [ih fun u hu => h u (List.mem_cons_of_mem _ hu)]

theorem filterMap_eq_nil_of_forall {α β : Type} (l : List α) (f : α → Option β)
    (h : ∀ u ∈ l, f u = none) : l.filterMap f = [] := by
  induction l with
  | nil => rfl
  | cons a as ih =>
    simp only [List.filterMap_cons, h a (List.mem_cons_self _ _)]
    exact ih fun u hu => h u (List.mem_cons_of_mem _ hu)

theorem aggregateAudit_total_eq_sum (rootStr : String) (pages : List String)
    (results : List (Settled PageResult)) :
    (aggregateAudit rootStr pages results).total_issues =
      ((aggregateAudit rootStr pages results).issues_by_category.map Prod.snd).sum := by
  simp only [aggregateAudit, categoryKeys, List.map_cons, List.map_nil,
    List.foldl_cons, List.foldl_nil, List.sum_cons, List.sum_nil]
  omega

theorem aggregateAudit_keys (rootStr : String) (pages : List String)
    (results : List (Settled PageResult)) :
    (aggregateAudit rootStr pages results).issues_by_category.map Prod.fst =
      categoryKeys := rfl

theorem prefix_count_of_inits (tr : List Ev)
    (h : ∀ q ∈ tr.inits, q.countP isSettle ≤ q.countP isStart) :
    ∀ q, q <+: tr → q.countP isSettle ≤ q.countP isStart :=
  fun q hq => h q ((List.mem_inits q tr).mpr hq)

/-- C4 (counterexample): the claim says `checkPerformance` with
`loadTimeMs = 4000`, `contentLength = 600*1024` and empty headers returns
exactly 2 issues; on a page with no scripts or stylesheets the code returns
3 — the `content-encoding` header is absent and the page exceeds 10 KB, so
the no-compression info issue fires as well. -/
theorem C4_counterexample :
    ¬ (checkPerformance 0 0 "https://example.com/test" 4000
        (600 * 1024) []).length = 2 := by
  decide

/-- C4 (amended): `checkPerformance` on `loadTimeMs = 4000`,
`contentLength = 600*1024`, empty headers and a page with no external
scripts or stylesheets returns exactly 3 issues — the large-page-size
warning, the slow-load-time error (no moderate-load warning, since the error
branch takes precedence) and the no-compression info issue. -/
theorem C4_amended :
    checkPerformance 0 0 "https://example.com/test" 4000 (600 * 1024) [] =
      [{ type := .warning,
         message := "Large page size (600 KB, recommended < 500 KB)",
         url := "https://example.com/test" },
       { type := .error,
         message := "Slow load time (4000ms, recommended < 3000ms)",
         url := "https://example.com/test" },
       { type := .info,
         message := "No compression detected (gzip/brotli recommended)",
         url := "https://example.com/test" }] := by
  decide

/-- C10: an `<img>` whose `alt` attribute is present but all whitespace is
counted by `checkImages` toward the empty-alt counter (the value is trimmed
before the comparison) and not toward the missing-alt counter: inserting such
an image increments the `emptyAlt` counter by one and leaves `missingAlt`
unchanged, and on such an image alone `checkImages` starts with the empty-alt
info issue and emits no error issue. -/
theorem C10_holds (imgs1 imgs2 : List ImgTag) (img : ImgTag) (s : String)
    (halt : img.alt = some s) (hs : jsTrim s = "") (pageUrl : String) :
    (imgCounters (imgs1 ++ img :: imgs2)).2.1
        = (imgCounters (imgs1 ++ imgs2)).2.1 + 1 ∧
    (imgCounters (imgs1 ++ img :: imgs2)).1 = (imgCounters (imgs1 ++ imgs2)).1 ∧
    (checkImages [img] pageUrl).head? =
      some { type := .info,
             message := "1 image(s) with empty alt (verify if decorative)",
             url := pageUrl } ∧
    ∀ i ∈ checkImages [img] pageUrl, i.type ≠ IssueType.error := by
  have hpm : pMissingAlt img = false := by simp [pMissingAlt, halt]
  have hpe : pEmptyAlt img = true := by simp [pEmptyAlt, halt, hs]
  refine ⟨?_, ?_, ?_, ?_⟩
  · rw [imgCounters_eq_countP, imgCounters_eq_countP]
    simp [List.countP_append, List.countP_cons, hpe]
    omega
  · rw [imgCounters_eq_countP, imgCounters_eq_countP]
    simp [List.countP_append, List.countP_cons, hpm]
  · by_cases hd : pMissingDim img = true
    · simp [checkImages, imgCounters_eq_countP, List.countP_cons,
        List.countP_nil, hpm, hpe, hd]
      decide
    · simp [checkImages, imgCounters_eq_countP, List.countP_cons,
        List.countP_nil, hpm, hpe, hd]
      decide
  · intro i hi
    by_cases hd : pMissingDim img = true
    · simp [checkImages, imgCounters_eq_countP, List.countP_cons,
        List.countP_nil, hpm, hpe, hd] at hi
      rcases hi with rfl | rfl <;> simp
    · simp [checkImages, imgCounters_eq_countP, List.countP_cons,
        List.countP_nil, hpm, hpe, hd] at hi
      rcases hi with rfl
      simp

/-- C10 (witness): evaluation at a single image whose alt is one space. -/
theorem C10_witness :
    (checkImages [{ alt := some " " }] "https://example.com/test").head? =
      some { type := .info,
             message := "1 image(s) with empty alt (verify if decorative)",
             url := "https://example.com/test" } :=
  (C10_holds [] [] { alt := some " " } " " rfl (by decide)
    "https://example.com/test").2.2.1


/-- Example root URL `https://example.com/` used by the concrete scenarios. -/
def rootEx : Url := { protocol := "https:", host := "example.com", pathname := "/" }

/-- Network for the C3 counterexample: `/sitemap.xml` is a sitemap index
whose first `<sitemap><loc>` points to a sub-sitemap at
`https://example.com/posts.xml` holding three `<url><loc>` entries; every
other fetch fails. -/
def envC3 : Net := fun u =>
  if u == "https://example.com/sitemap.xml" then
    some { ok := true, sitemapLocs := ["https://example.com/posts.xml"] }
  else if u == "https://example.com/posts.xml" then
    some { ok := true,
           urlLocs := ["https://example.com/1", "https://example.com/2",
                       "https://example.com/3"] }
  else none

/-- C3 (counterexample): with the sitemap index of `envC3` — whose first
`<sitemap><loc>` points to a sub-sitemap that does contain 3 `<url><loc>`
entries — discovery returns `[]`, not the 3 URLs: the recursion strips a
trailing `/sitemap.xml` from the sub-sitemap URL and re-appends it, so the
sub-sitemap `https://example.com/posts.xml` is fetched at the wrong URL
`https://example.com/posts.xml/sitemap.xml`, which fails, and the link-crawl
fallback finds nothing. -/
theorem C3_counterexample :
    discoverPages envC3 10 rootEx 10 = [] ∧
    envC3 "https://example.com/sitemap.xml" =
      some { ok := true, sitemapLocs := ["https://example.com/posts.xml"] } ∧
    envC3 "https://example.com/posts.xml" =
      some { ok := true,
             urlLocs := ["https://example.com/1", "https://example.com/2",
                         "https://example.com/3"] } := by
  refine ⟨by decide, by decide, by decide⟩

/-- C3 (amended): the sitemap-index scenario works when the sub-sitemap URL
itself ends with `/sitemap.xml`: the recursion strips that suffix from the
first `<sitemap><loc>` and the recursive call re-appends it, so exactly the
sub-sitemap is fetched and discovery with `max_pages = 10` returns its 3
`<url><loc>` entries in document order.  (For a sub-sitemap URL of any other
shape the wrong URL is fetched; see the counterexample.) -/
theorem C3_amended (env : Net) (root : Url) (fuel : Nat) (p : String)
    (ct1 ct2 : String) (links1 links2 : List (Option Url)) (u1 u2 u3 : String)
    (h1 : env (root.protocol ++ "//" ++ root.host ++ "/sitemap.xml") =
      some { ok := true, contentType := ct1,
             sitemapLocs := [p ++ "/sitemap.xml"], urlLocs := [],
             links := links1 })
    (htrim : jsTrim (p ++ "/sitemap.xml") = p ++ "/sitemap.xml")
    (h2 : env (p ++ "/sitemap.xml") =
      some { ok := true, contentType := ct2, sitemapLocs := [],
             urlLocs := [u1, u2, u3], links := links2 })
    (ht1 : jsTrim u1 = u1) (ht2 : jsTrim u2 = u2) (ht3 : jsTrim u3 = u3) :
    discoverPages env (fuel + 2) root 10 = [u1, u2, u3] := by
  have hchars : ("/sitemap.xml" : String).data ≠ [] := by decide
  have hne : (p ++ "/sitemap.xml") ≠ "" := by
    intro hcon
    have hd := congrArg String.data hcon
    rw [String.data_append] at hd
    exact hchars (List.append_eq_nil.mp hd).2
  have hbne : ((p ++ "/sitemap.xml") != "") = true := bne_iff_ne.mpr hne
  have hts : trySitemap env (fuel + 2) (root.protocol ++ "//" ++ root.host) 10
      = [u1, u2, u3] := by
    rw [show fuel + 2 = (fuel + 1) + 1 from rfl, trySitemap, h1]
    simp only [Bool.not_true, Bool.false_eq_true, if_false, htrim, hbne,
      if_true, stripSitemapSuffix_append]
    rw [trySitemap, h2]
    simp [ht1, ht2, ht3]
  simp only [discoverPages, hts]
  simp

/-- Network for the C3 witness: the sub-sitemap URL ends in `/sitemap.xml`,
so the recursion fetches the right document. -/
def envC3w : Net := fun u =>
  if u == "https://example.com/sitemap.xml" then
    some { ok := true, sitemapLocs := ["https://sub.example.com/sitemap.xml"] }
  else if u == "https://sub.example.com/sitemap.xml" then
    some { ok := true,
           urlLocs := ["https://sub.example.com/1", "https://sub.example.com/2",
                       "https://sub.example.com/3"] }
  else none

/-- C3 (witness): concrete run of the amended sitemap-index scenario. -/
theorem C3_amended_witness :
    discoverPages envC3w 10 rootEx 10 =
      ["https://sub.example.com/1", "https://sub.example.com/2",
       "https://sub.example.com/3"] :=
  C3_amended envC3w rootEx 8 "https://sub.example.com" "" "" [] []
    "https://sub.example.com/1" "https://sub.example.com/2"
    "https://sub.example.com/3"
    (by decide) (by decide) (by decide) (by decide) (by decide) (by decide)

/-- Network for the C5 counterexample: the sitemap lists the same URL
twice. -/
def envC5 : Net := fun u =>
  if u == "https://example.com/sitemap.xml" then
    some { ok := true,
           urlLocs := ["https://example.com/a", "https://example.com/a"] }
  else none

/-- C5 (counterexample): the claim says discovery never returns the same URL
twice, but the sitemap strategy pushes `<url><loc>` entries without
deduplication, so a sitemap listing the same URL twice makes `discover`
return a duplicated list. -/
theorem C5_counterexample :
    discoverPages envC5 5 rootEx 10 =
      ["https://example.com/a", "https://example.com/a"] ∧
    ¬ (discoverPages envC5 5 rootEx 10).Nodup := by
  refine ⟨by decide, by decide⟩

/-- C5 (amended): discovery always returns at most `max_pages` URLs, and the
link-crawl strategy never returns duplicates; the sitemap strategy, however,
returns `<url><loc>` entries verbatim and may duplicate a URL that the
sitemap lists twice (see the counterexample). -/
theorem C5_amended :
    (∀ (env : Net) (fuel : Nat) (root : Url) (mp : Nat),
        (discoverPages env fuel root mp).length ≤ mp) ∧
    (∀ (env : Net) (startUrl baseHost : String) (mp fuel : Nat),
        (crawlLinks env startUrl baseHost mp fuel).Nodup) := by
  constructor
  · intro env fuel root mp
    simp only [discoverPages]
    split
    · exact List.length_take_le mp _
    · exact crawlLoop_length_le env root.host mp fuel _ (by simp)
  · intro env startUrl baseHost mp fuel
    exact crawlLoop_nodup env baseHost mp fuel _ List.nodup_nil (by simp)

/-- Root URL with a query string, for the C6 counterexample. -/
def rootQ : Url :=
  { protocol := "https:", host := "example.com", pathname := "/p",
    search := "?q=1" }

/-- Network for the C6 counterexample: no sitemap; the root page (with its
query string) serves HTML with no links. -/
def envC6 : Net := fun u =>
  if u == "https://example.com/p?q=1" then
    some { ok := true, contentType := "text/html" }
  else none

/-- C6 (counterexample): the claim says every URL the link-crawl records is
the canonical `scheme + host + path` form with query and fragment stripped,
including the root; but `crawlLinks` pushes the dequeued URL verbatim into
`foundUrls`, so a root URL carrying a query string is recorded with its query
intact, not as its canonical form. -/
theorem C6_counterexample :
    discoverPages envC6 5 rootQ 10 = ["https://example.com/p?q=1"] ∧
    "https://example.com/p?q=1" ≠ canonUrl rootQ := by
  refine ⟨by decide, by decide⟩

/-- C6 (amended): every URL recorded by the link-crawl strategy is either the
starting URL itself — recorded verbatim, query and fragment included — or the
canonical `scheme + host + path` form of a same-host link (canonicalization
is applied only when enqueuing extracted links, never to the start URL). -/
theorem C6_amended (env : Net) (startUrl baseHost : String) (mp fuel : Nat) :
    ∀ u ∈ crawlLinks env startUrl baseHost mp fuel,
      u = startUrl ∨ ∃ url : Url, url.host = baseHost ∧ u = canonUrl url := by
  intro u hu
  refine crawlLoop_forall env baseHost mp
    (fun x => x = startUrl ∨ ∃ url : Url, url.host = baseHost ∧ x = canonUrl url)
    (fun url hhost => Or.inr ⟨url, hhost, rfl⟩) fuel _ ?_ ?_ u hu
  · intro x hx
    simp only [List.mem_singleton] at hx
    exact Or.inl hx
  · intro x hx
    simp at hx

/-- Network for the C6 witness: the root links to a same-host page, which the
crawl canonicalizes when enqueuing. -/
def envC6w : Net := fun u =>
  if u == "https://example.com/" then
    some { ok := true, contentType := "text/html",
           links := [some { protocol := "https:", host := "example.com",
                            pathname := "/a", search := "?x=2" }] }
  else if u == "https://example.com/a" then
    some { ok := true, contentType := "text/html" }
  else none

/-- C6 (witness): the crawled same-host link is recorded canonically. -/
theorem C6_amended_witness :
    "https://example.com/a" ∈
      crawlLinks envC6w "https://example.com/" "example.com" 10 10 ∧
    ("https://example.com/a" = "https://example.com/" ∨
      ∃ url : Url, url.host = "example.com" ∧
        "https://example.com/a" = canonUrl url) :=
  ⟨by decide,
   C6_amended envC6w "https://example.com/" "example.com" 10 10
     "https://example.com/a" (by decide)⟩

/-- Network for C9's sitemap half: the sitemap lists a URL on a different
host (`other.com`) than the root (`example.com`). -/
def envC9 : Net := fun u =>
  if u == "https://example.com/sitemap.xml" then
    some { ok := true, urlLocs := ["https://other.com/x"] }
  else none

/-- Network for C9's crawl half: no sitemap; the root links to a cross-host
page and to a same-host page. -/
def envC9crawl : Net := fun u =>
  if u == "https://example.com/" then
    some { ok := true, contentType := "text/html",
           links := [some { protocol := "https:", host := "other.com",
                            pathname := "/x" },
                     some { protocol := "https:", host := "example.com",
                            pathname := "/b" }] }
  else if u == "https://example.com/b" then
    some { ok := true, contentType := "text/html" }
  else none

/-- C9: the sitemap strategy returns `<url><loc>` entries verbatim, with no
same-host filtering or canonicalization — for the sitemap of `envC9`, which
lists a URL on host `other.com` while the root is on `example.com`, discovery
returns that cross-host URL unchanged; the link-crawl strategy by contrast
(`envC9crawl`, where the root links to the same cross-host URL and a
same-host one) enqueues only the same-host link and never returns the
cross-host URL. -/
theorem C9_holds :
    discoverPages envC9 5 rootEx 10 = ["https://other.com/x"] ∧
    ({ protocol := "https:", host := "other.com", pathname := "/x" } : Url).host
      ≠ rootEx.host ∧
    discoverPages envC9crawl 5 rootEx 10 =
      ["https://example.com/", "https://example.com/b"] ∧
    "https://other.com/x" ∉ discoverPages envC9crawl 5 rootEx 10 := by
  refine ⟨by decide, by decide, by decide, by decide⟩

/-- C7: for a non-zero concurrency `C`, `processBatches` is exactly the
concatenation of the per-batch settlements of the consecutive `C`-sized
slices of the input (the batch partition joins back to the input, every batch
is non-empty of size at most `C`, and all but the last have size exactly
`C`), and the success/failure split used by `audit_site` lists fulfilled
results and rejected `{url, error}` pairs in batch-then-position (input)
order — as order-preserving filters of the input list — not in completion
order. -/
theorem C7_holds (pages : List String) (C : Nat) (hC : C ≠ 0)
    (proc : String → Settled PageResult) :
    processBatches pages C proc =
      ((batches pages C).map fun b => b.map proc).flatten ∧
    (batches pages C).flatten = pages ∧
    (∀ b ∈ batches pages C, b ≠ [] ∧ b.length ≤ C) ∧
    (∀ b ∈ (batches pages C).dropLast, b.length = C) ∧
    splitSettled pages (processBatches pages C proc) =
      (pages.filterMap fun u =>
         match proc u with
         | .fulfilled v => some v
         | .rejected _ => none,
       pages.filterMap fun u =>
         match proc u with
         | .rejected reason => some (u, reason.getD "Unknown error")
         | .fulfilled _ => none) := by
  refine ⟨processBatches_eq_flatten pages C proc, batches_flatten pages C hC,
    fun b hb => batches_mem_le pages C hC b hb,
    fun b hb => batches_dropLast pages C hC b hb, ?_⟩
  rw [processBatches_eq_map pages C hC, splitSettled_map]

/-- Concrete per-URL settlement for the C7 witness: `"b"` rejects, the rest
fulfill. -/
def procW : String → Settled PageResult := fun u =>
  if u == "b" then .rejected (some "boom")
  else .fulfilled { url := u, issues := [] }

/-- C7 (witness): the success/failure split at a concrete 3-element run with
concurrency 2. -/
theorem C7_witness :
    splitSettled ["a", "b", "c"] (processBatches ["a", "b", "c"] 2 procW) =
      (["a", "b", "c"].filterMap fun u =>
         match procW u with
         | .fulfilled v => some v
         | .rejected _ => none,
       ["a", "b", "c"].filterMap fun u =>
         match procW u with
         | .rejected reason => some (u, reason.getD "Unknown error")
         | .fulfilled _ => none) :=
  (C7_holds ["a", "b", "c"] 2 (by decide) procW).2.2.2.2

/-- C8: in any trace the batch orchestrator can produce over the batch sizes
of `batches pages C` — each batch contributing a contiguous segment with as
many starts as settles, settles never outnumbering starts inside a segment,
and `await Promise.allSettled` forcing a segment to finish before the next
begins — every prefix has at most `C` analyses in flight (started but not yet
settled), for any non-zero concurrency `C`. -/
theorem C8_holds (pages : List String) (C : Nat) (hC : C ≠ 0) (tr : List Ev)
    (hrun : BatchRunTrace ((batches pages C).map List.length) tr) :
    ∀ p, p <+: tr → inFlight p ≤ C := by
  intro p hp
  rw [inFlight]
  refine batchRunTrace_inFlight C ((batches pages C).map List.length) tr
    ?_ hrun p hp
  intro n hn
  rcases List.mem_map.mp hn with ⟨b, hb, rfl⟩
  exact (batches_mem_le pages C hC b hb).2

/-- Concrete trace for the C8 witness: batch `[2, 1]` as two starts, two
settles, then one start and one settle. -/
def trW : List Ev :=
  [Ev.start, Ev.start, Ev.settle, Ev.settle, Ev.start, Ev.settle]

theorem batchRunW : BatchRunTrace [2, 1] trW := by
  have hseg1 : ∀ q, q <+: ([Ev.start, Ev.start, Ev.settle, Ev.settle] : List Ev)
      → q.countP isSettle ≤ q.countP isStart :=
    prefix_count_of_inits _ (by decide)
  have hseg2 : ∀ q, q <+: ([Ev.start, Ev.settle] : List Ev)
      → q.countP isSettle ≤ q.countP isStart :=
    prefix_count_of_inits _ (by decide)
  have h1 : BatchRunTrace [1] ([Ev.start, Ev.settle] ++ []) :=
    BatchRunTrace.cons 1 [] [Ev.start, Ev.settle] [] (by decide) (by decide)
      hseg2 BatchRunTrace.nil
  exact BatchRunTrace.cons 2 [1] [Ev.start, Ev.start, Ev.settle, Ev.settle]
    ([Ev.start, Ev.settle] ++ []) (by decide) (by decide) hseg1 h1

/-- C8 (witness): after the first two starts of the concrete trace, exactly
two analyses are in flight, within the bound. -/
theorem C8_witness : inFlight [Ev.start, Ev.start] ≤ 2 :=
  C8_holds ["a", "b", "c"] 2 (by decide) trW batchRunW
    [Ev.start, Ev.start]
    ⟨[Ev.settle, Ev.settle, Ev.start, Ev.settle], rfl⟩

theorem aggregateAudit_all_fulfilled_empty (rootStr : String)
    (pages : List String) (f : String → PageResult)
    (hiss : ∀ u ∈ pages, (f u).issues = []) :
    aggregateAudit rootStr pages (pages.map fun u => Settled.fulfilled (f u)) =
      { url := rootStr, pages_analyzed := pages.length, failed_pages := [],
        total_issues := 0,
        issues_by_category := categoryKeys.map fun c => (c, 0),
        results := pages.map f } := by
  have hsucc : (pages.filterMap fun u =>
      match Settled.fulfilled (f u) with
      | .fulfilled v => some (v : PageResult)
      | .rejected _ => none) = pages.map f :=
    filterMap_eq_map_of_forall pages _ f fun u _ => rfl
  have hfailnil : (pages.filterMap fun u =>
      match Settled.fulfilled (f u) with
      | .rejected reason => some (u, reason.getD "Unknown error")
      | .fulfilled _ => none) = ([] : List (String × String)) :=
    filterMap_eq_nil_of_forall pages _ fun u _ => rfl
  have hiss2 : ∀ r ∈ pages.map f, r.issues = [] := by
    intro r hr
    rcases List.mem_map.mp hr with ⟨u, hu, rfl⟩
    exact hiss u hu
  have hallIssues : (categoryKeys.map fun c =>
        (c, (pages.map f).foldl
              (fun acc r => acc ++ ((r.issues.lookup c).getD [])) [])) =
      categoryKeys.map fun c => (c, ([] : List Issue)) :=
    List.map_congr_left fun c _ => by rw [foldl_lookup_empty c (pages.map f) hiss2]
  simp only [aggregateAudit, splitSettled_map, hsucc, hfailnil, hallIssues]
  simp [categoryKeys]

/-- C1 (amended): when every discovered page's fetch fails, each
`analyze_page` still fulfills — `fetchPage` returns the failure as data and
`analyzePage` returns a `PageResult` with `error` set and empty `issues` —
so the audit counts every such page in `pages_analyzed`, returns one
error-carrying `PageResult` per URL in `results`, leaves `failed_pages`
empty (it only collects analyses whose promise rejects, e.g. an uncaught
exception surviving the task retries), and reports `total_issues = 0`. -/
theorem C1_amended (w : World) (fuel : Nat) (root : Url) (mp mc : Nat)
    (hfail : ∀ u ∈ discoverPages w.net fuel root (min mp 100),
        (w.page u).isErr = true)
    (htask : ∀ u ∈ discoverPages w.net fuel root (min mp 100),
        w.taskFail u = none) :
    (audit_site w fuel root mp mc).pages_analyzed
        = (discoverPages w.net fuel root (min mp 100)).length ∧
    (audit_site w fuel root mp mc).failed_pages = [] ∧
    (audit_site w fuel root mp mc).total_issues = 0 ∧
    (audit_site w fuel root mp mc).results.length
        = (discoverPages w.net fuel root (min mp 100)).length ∧
    ∀ pr ∈ (audit_site w fuel root mp mc).results,
        pr.error.isSome = true ∧ pr.issues = [] := by
  by_cases h0 : (discoverPages w.net fuel root (min mp 100)).length = 0
  · have hnil := List.length_eq_zero.mp h0
    simp only [audit_site]
    rw [if_pos h0]
    simp [hnil]
  · have hC : min (max mc 1) 50 ≠ 0 := by
      have h1 : (1 : Nat) ≤ max mc 1 := le_max_right mc 1
      have h2 : (1 : Nat) ≤ min (max mc 1) 50 := le_min h1 (by norm_num)
      omega
    have hrunfix : ∀ u ∈ discoverPages w.net fuel root (min mp 100),
        runAnalyze w u = .fulfilled (analyzePage w.page w.probe u) := by
      intro u hu
      simp [runAnalyze, htask u hu]
    have hmapeq : (discoverPages w.net fuel root (min mp 100)).map (runAnalyze w)
        = (discoverPages w.net fuel root (min mp 100)).map
            fun u => Settled.fulfilled (analyzePage w.page w.probe u) :=
      List.map_congr_left hrunfix
    have hiss : ∀ u ∈ discoverPages w.net fuel root (min mp 100),
        (analyzePage w.page w.probe u).issues = [] := by
      intro u hu
      have hf := hfail u hu
      cases hw : w.page u with
      | err msg => simp [analyzePage, hw]
      | ok doc headers lt cl sc =>
        rw [hw] at hf
        simp [FetchOutcome.isErr] at hf
    have herr : ∀ u ∈ discoverPages w.net fuel root (min mp 100),
        (analyzePage w.page w.probe u).error.isSome = true := by
      intro u hu
      have hf := hfail u hu
      cases hw : w.page u with
      | err msg => simp [analyzePage, hw]
      | ok doc headers lt cl sc =>
        rw [hw] at hf
        simp [FetchOutcome.isErr] at hf
    have haudit : audit_site w fuel root mp mc =
        { url := urlString root,
          pages_analyzed := (discoverPages w.net fuel root (min mp 100)).length,
          failed_pages := [], total_issues := 0,
          issues_by_category := categoryKeys.map fun c => (c, 0),
          results := (discoverPages w.net fuel root (min mp 100)).map
            fun u => analyzePage w.page w.probe u } := by
      simp only [audit_site]
      rw [if_neg h0]
      rw [processBatches_eq_map _ _ hC, hmapeq]
      exact aggregateAudit_all_fulfilled_empty _ _ _ hiss
    rw [haudit]
    refine ⟨rfl, rfl, rfl, by simp, ?_⟩
    intro pr hpr
    simp only at hpr
    rcases List.mem_map.mp hpr with ⟨u, hu, rfl⟩
    exact ⟨herr u hu, hiss u hu⟩

/-- Network for the C1 audit scenario: the sitemap lists two pages. -/
def envC1 : Net := fun u =>
  if u == "https://example.com/sitemap.xml" then
    some { ok := true,
           urlLocs := ["https://example.com/a", "https://example.com/b"] }
  else none

/-- World for the C1 scenario: every page fetch times out, no analysis task
is rejected by the substrate. -/
def wC1 : World :=
  { net := envC1,
    page := fun u => .err ("Timeout fetching " ++ u),
    probe := fun _ => .rejected none,
    taskFail := fun _ => none }

/-- C1 (counterexample): the claim says that when every discovered page's
fetch fails, the audit returns `pages_analyzed = 0`, one `failed_pages`
entry per URL, and `results = []`; but with both discovered pages timing out
the returned report has `pages_analyzed = 2`, `failed_pages = []` and a
non-empty `results` (the fetch failures are fulfilled error-PageResults, not
rejections). -/
theorem C1_counterexample :
    (audit_site wC1 5 rootEx 25 10).pages_analyzed = 2 ∧
    (audit_site wC1 5 rootEx 25 10).failed_pages = [] ∧
    (audit_site wC1 5 rootEx 25 10).results ≠ [] := by
  refine ⟨by decide, by decide, by decide⟩

/-- C1 (witness): the amended statement evaluated at the two-page world in
which both fetches fail. -/
theorem C1_amended_witness :
    (audit_site wC1 5 rootEx 25 10).failed_pages = [] ∧
    (audit_site wC1 5 rootEx 25 10).total_issues = 0 :=
  ⟨(C1_amended wC1 5 rootEx 25 10 (by decide) (by decide)).2.1,
   (C1_amended wC1 5 rootEx 25 10 (by decide) (by decide)).2.2.1⟩

/-- World whose discovery finds no pages: every fetch fails. -/
def wEmpty : World :=
  { net := fun _ => none,
    page := fun _ => .err "unreachable",
    probe := fun _ => .rejected none,
    taskFail := fun _ => none }

/-- C2 (counterexample): the claim says `issues_by_category` has exactly the
5 fixed keys in every `AuditResult` including the zero-pages-discovered
case; but the zero-page short-circuit returns an empty `issues_by_category`
record with no keys at all. -/
theorem C2_counterexample :
    (audit_site wEmpty 5 rootEx 25 10).issues_by_category = [] ∧
    (audit_site wEmpty 5 rootEx 25 10).issues_by_category.map Prod.fst
      ≠ categoryKeys := by
  refine ⟨by decide, by decide⟩

/-- C2 (amended): in every audit `total_issues` equals the sum of the
per-category counts in `issues_by_category`; `issues_by_category` has
exactly the 5 fixed keys `meta_tags, links, headings, images, performance`
whenever discovery found at least one page, and is empty (no keys) in the
zero-pages short-circuit case. -/
theorem C2_amended (w : World) (fuel : Nat) (root : Url) (mp mc : Nat) :
    (audit_site w fuel root mp mc).total_issues =
      ((audit_site w fuel root mp mc).issues_by_category.map Prod.snd).sum ∧
    (discoverPages w.net fuel root (min mp 100) = [] →
      (audit_site w fuel root mp mc).issues_by_category = []) ∧
    (discoverPages w.net fuel root (min mp 100) ≠ [] →
      (audit_site w fuel root mp mc).issues_by_category.map Prod.fst
        = categoryKeys) := by
  by_cases h0 : (discoverPages w.net fuel root (min mp 100)).length = 0
  · have hnil := List.length_eq_zero.mp h0
    simp only [audit_site]
    rw [if_pos h0]
    refine ⟨rfl, fun _ => rfl, fun hne => absurd hnil hne⟩
  · have hne : discoverPages w.net fuel root (min mp 100) ≠ [] := by
      intro hcon
      exact h0 (by rw [hcon]; rfl)
    simp only [audit_site]
    rw [if_neg h0]
    exact ⟨aggregateAudit_total_eq_sum _ _ _,
           fun hcon => absurd hcon hne,
           fun _ => aggregateAudit_keys _ _ _⟩

/-- C2 (witness): the zero-page branch of the amended statement at a world
whose discovery finds nothing. -/
theorem C2_amended_witness :
    (audit_site wEmpty 5 rootEx 25 10).issues_by_category = [] :=
  (C2_amended wEmpty 5 rootEx 25 10).2.1 (by decide)
